import Mathlib

/-!
Verification of the highway traffic simulation engine
(`highway_simulation.py`).  The Python engine is shallowly embedded:
floating point numbers become exact rationals (`ℚ`), Python's
`float('inf')` sentinel becomes `Option ℚ` with `none` playing the role
of infinity, and every call to the process-global `random` module is
replaced by reading a value from an explicit oracle of pre-drawn values,
threaded through the computation by a call counter (one shared counter,
mirroring the single underlying global stream).
-/

set_option maxRecDepth 100000

namespace Highway

/-- Lane positions, `Lane` enum of the source: 0 = rightmost, 1 = middle,
2 = leftmost. -/
inductive Lane where
  | right : Lane
  | middle : Lane
  | left : Lane
deriving DecidableEq, Repr

/-- The integer value of a lane, `lane.value` in the source. -/
def Lane.val : Lane → ℤ
  | .right => 0
  | .middle => 1
  | .left => 2

/-- `Lane(v)` of the source.  The Python constructor raises `ValueError`
outside `{0, 1, 2}`; in the engine it is only ever applied to values in
range (`value + 1` when not leftmost, `value - 1` when not rightmost),
so the out-of-range default here is never reached from the embedded
call sites. -/
def Lane.ofVal (v : ℤ) : Lane :=
  if v = 0 then .right else if v = 1 then .middle else .left

/-- The `Car` dataclass of the source. -/
structure Car where
  position : ℚ
  speed : ℚ
  lane : Lane
  maxSpeed : ℚ
  followsBadPractice : Bool
deriving DecidableEq, Repr

/-- The simulation state: the fields set by `HighwaySimulation.__init__`.
`numCars` is `ℤ` because the Python parameter is an `int` that is never
validated. -/
structure HighwaySimulation where
  numCars : ℤ
  highwayLength : ℚ
  badPracticeRatio : ℚ
  spawnProbability : ℚ
  cars : List Car
  timeStep : ℚ
  trafficJamDetected : Bool
deriving DecidableEq, Repr

/-- Oracle of pre-drawn random values.  Each Python call
`random.random()`, `random.uniform(...)`, `random.triangular(90, 130, 128)`
or `Lane(random.randint(0, 2))` consumes the value at the current call
counter from the corresponding stream and advances the shared counter. -/
structure Oracle where
  rand : ℕ → ℚ
  unifDraw : ℕ → ℚ
  triDraw : ℕ → ℚ
  laneDraw : ℕ → Lane

/-- Stable ascending sort by position; Python's `sorted(..., key=lambda
c: c.position)` and `list.sort(key=...)` are stable, as is insertion
sort with a `≤` comparison. -/
def sortByPosition (cars : List Car) : List Car :=
  List.insertionSort (fun c1 c2 => c1.position ≤ c2.position) cars

/-- `_get_cars_in_lane`: all cars in a given lane, sorted by position. -/
def getCarsInLane (cars : List Car) (lane : Lane) : List Car :=
  sortByPosition (cars.filter (fun c => decide (c.lane = lane)))

/-- `_get_distance`: distance from `c1` to `c2`; `none` models the
`float('inf')` returned when `c2` is not strictly ahead in position. -/
def getDistance (c1 c2 : Car) : Option ℚ :=
  if c2.position > c1.position then some (c2.position - c1.position) else none

/-- Comparison `d < x` of a possibly-infinite distance with a finite
bound; `float('inf') < x` is `False` in Python. -/
def distLtQ : Option ℚ → ℚ → Bool
  | none, _ => false
  | some d, x => decide (d < x)

/-- Comparison of two possibly-infinite distances, used for the running
minimum `min_distance` that starts at `float('inf')`. -/
def distLtD : Option ℚ → Option ℚ → Bool
  | none, _ => false
  | some _, none => true
  | some d, some e => decide (d < e)

/-- `_is_car_ahead`: `c2` counts as ahead of `c1` only when both are in
the same lane and `c2` is at a strictly greater position. -/
def isCarAhead (c1 c2 : Car) : Bool :=
  if c2.lane = c1.lane then decide (c2.position > c1.position) else false

/-- `_can_pass_on_left`: the left-lane-change safety check of the
source, loop for loop.  Note that `isCarAhead car otherCar` compares
lanes, and `otherCar` ranges over the target lane, which differs from
`car.lane`; so the first branch of the loop body never fires. -/
def canPassOnLeft (cars : List Car) (car : Car) : Bool :=
  if car.lane = Lane.left then false
  else
    let targetLane := Lane.ofVal (car.lane.val + 1)
    let carsInTarget := getCarsInLane cars targetLane
    carsInTarget.all fun otherCar =>
      if isCarAhead car otherCar then !(distLtQ (getDistance car otherCar) 50)
      else !(distLtQ (getDistance otherCar car) 50)

/-- `_should_move_to_right`: the right-lane-change safety check of the
source, loop for loop (same dead first branch as `canPassOnLeft`). -/
def shouldMoveToRight (cars : List Car) (car : Car) : Bool :=
  if car.lane = Lane.right then false
  else
    let targetLane := Lane.ofVal (car.lane.val - 1)
    let carsInTarget := getCarsInLane cars targetLane
    carsInTarget.all fun otherCar =>
      if isCarAhead car otherCar then !(distLtQ (getDistance car otherCar) 50)
      else !(distLtQ (getDistance otherCar car) 50)

/-- The nearest-car-ahead search that `is_blocked`, `_update_car_lane`
and `_update_car_speed` each perform: scan the cars of the current lane,
keeping the candidate at minimal distance (running minimum started at
`float('inf')`, strict `<` update). -/
def findCarAhead (cars : List Car) (car : Car) : Option Car :=
  ((getCarsInLane cars car.lane).foldl
    (fun acc otherCar =>
      if isCarAhead car otherCar then
        if distLtD (getDistance car otherCar) acc.2 then
          (some otherCar, getDistance car otherCar)
        else acc
      else acc)
    ((none : Option Car), (none : Option ℚ))).1

/-- `is_blocked`: a car is blocked when it has a strictly slower nearest
car ahead, cannot pass on the left, and either is in the leftmost lane
or is within 50 m of the car ahead. -/
def isBlocked (cars : List Car) (car : Car) : Bool :=
  match findCarAhead cars car with
  | none => false
  | some carAhead =>
    if carAhead.speed ≥ car.speed then false
    else if canPassOnLeft cars car then false
    else if car.lane = Lane.left then true
    else if distLtQ (getDistance car carAhead) 50 then true
    else false

/-- Final rule of `_update_car_lane`: when not passing, a car that does
not follow bad practice and is not already rightmost returns to the
right lane if that lane is judged safe. -/
def laneReturnRight (cars : List Car) (car : Car) : Car :=
  if !car.followsBadPractice && !decide (car.lane = Lane.right)
      && shouldMoveToRight cars car then
    { car with lane := Lane.ofVal (car.lane.val - 1) }
  else car

/-- The tail of `_update_car_lane` after the first two rules: try to
pass on the left when the nearest car ahead is strictly slower. -/
def laneRuleRest (cars : List Car) (car : Car) : Car :=
  match findCarAhead cars car with
  | some carAhead =>
    if decide (carAhead.speed < car.speed) && canPassOnLeft cars car then
      { car with lane := Lane.ofVal (car.lane.val + 1) }
    else laneReturnRight cars car
  | none => laneReturnRight cars car

/-- `_update_car_lane`.  A car that follows bad practice and sits in the
middle lane consumes one uniform draw and stays put when the draw is
below 0.7; the draw is consumed even when the car goes on to evaluate
the remaining rules. -/
def updateCarLane (o : Oracle) (cars : List Car) (car : Car) (n : ℕ) :
    Car × ℕ :=
  if !car.followsBadPractice && shouldMoveToRight cars car then
    ({ car with lane := Lane.ofVal (car.lane.val - 1) }, n)
  else if car.followsBadPractice && decide (car.lane = Lane.middle) then
    if o.rand n < 7/10 then (car, n + 1)
    else (laneRuleRest cars car, n + 1)
  else (laneRuleRest cars car, n)

/-- `_update_car_speed`: accelerate by `2.0 * time_step` up to
`max_speed` when no car is ahead; otherwise brake, match, or accelerate
depending on the gap against the speed-dependent safe following
distance `30.0 + speed * 0.5`; finally clamp at zero. -/
def updateCarSpeed (timeStep : ℚ) (cars : List Car) (car : Car) : Car :=
  let newSpeed :=
    match findCarAhead cars car with
    | none => min (car.speed + 2 * timeStep) car.maxSpeed
    | some carAhead =>
      let distance := getDistance car carAhead
      let safeDistance : ℚ := 30 + car.speed * (1/2)
      if distLtQ distance safeDistance then
        max (carAhead.speed - 5) (car.speed - 5 * timeStep)
      else if distLtQ distance (safeDistance * (3/2)) then carAhead.speed
      else min (car.speed + 2 * timeStep) car.maxSpeed
  { car with speed := max 0 newSpeed }

/-- `_update_car_position`: `position += speed * time_step *
(1000.0 / 3600.0)`. -/
def updateCarPosition (timeStep : ℚ) (car : Car) : Car :=
  { car with position := car.position + car.speed * timeStep * (1000 / 3600) }

/-- `_has_space_for_spawn` with the default 30 m clearance used at its
only call site. -/
def hasSpaceForSpawn (cars : List Car) (position : ℚ) (lane : Lane) :
    Bool :=
  cars.all fun other =>
    !(decide (other.lane = lane) && decide (|other.position - position| < 30))

/-- `_create_car`.  The `position` draw is `random.uniform(0,
highway_length)` and happens only when no position is supplied; the
`max_speed` draw is `random.triangular(90, 130, 128)`; the speed factor
draw is `random.uniform(0.90, 0.98)`; the lane draw
`Lane(random.randint(0, 2))` happens only when no lane is supplied; the
final draw is `random.random()` compared against the bad-practice
ratio. -/
def createCar (o : Oracle) (highwayLength badPracticeRatio : ℚ)
    (positionArg : Option ℚ) (laneArg : Option Lane) (n : ℕ) : Car × ℕ :=
  let p1 : ℚ × ℕ :=
    match positionArg with
    | none => (o.unifDraw n, n + 1)
    | some p => (p, n)
  let maxSpeed := o.triDraw p1.2
  let speed := maxSpeed * o.unifDraw (p1.2 + 1)
  let p2 : Lane × ℕ :=
    match laneArg with
    | none => (o.laneDraw (p1.2 + 2), p1.2 + 3)
    | some l => (l, p1.2 + 2)
  let followsBadPractice := decide (o.rand p2.2 < badPracticeRatio)
  (⟨p1.1, speed, p2.1, maxSpeed, followsBadPractice⟩, p2.2 + 1)

/-- The creation loop of `_initialize_cars`: `num_cars` calls of
`_create_car()` appended in order. -/
def initCarsAux (o : Oracle) (highwayLength badPracticeRatio : ℚ) :
    ℕ → List Car → ℕ → List Car × ℕ
  | 0, acc, n => (acc, n)
  | k + 1, acc, n =>
    let r := createCar o highwayLength badPracticeRatio none none n
    initCarsAux o highwayLength badPracticeRatio k (acc ++ [r.1]) r.2

/-- `HighwaySimulation.__init__`: record the parameters unvalidated, fix
`time_step = 0.1`, clear the jam flag, and build the initial
position-sorted car list (`_initialize_cars`).  A negative `num_cars`
makes the creation loop empty, exactly as `range` does in Python. -/
def initSim (o : Oracle) (numCars : ℤ)
    (highwayLength badPracticeRatio spawnProbability : ℚ) (n : ℕ) :
    HighwaySimulation × ℕ :=
  let r := initCarsAux o highwayLength badPracticeRatio numCars.toNat [] n
  (⟨numCars, highwayLength, badPracticeRatio, spawnProbability,
    sortByPosition r.1, 1/10, false⟩, r.2)

/-- The spawn loop of `_spawn_new_cars_if_needed`: one attempt per
missing slot; an attempt first draws against the spawn probability, then
draws a lane and a position near the start, and appends a new car only
when the 30 m clearance check against the current (growing) list
passes. -/
def spawnAux (o : Oracle)
    (spawnProbability highwayLength badPracticeRatio : ℚ) :
    ℕ → List Car → ℕ → List Car × ℕ
  | 0, cars, n => (cars, n)
  | k + 1, cars, n =>
    if o.rand n < spawnProbability then
      let lane := o.laneDraw (n + 1)
      let position := o.unifDraw (n + 2)
      if hasSpaceForSpawn cars position lane then
        let r := createCar o highwayLength badPracticeRatio
          (some position) (some lane) (n + 3)
        spawnAux o spawnProbability highwayLength badPracticeRatio k
          (cars ++ [r.1]) r.2
      else
        spawnAux o spawnProbability highwayLength badPracticeRatio k
          cars (n + 3)
    else
      spawnAux o spawnProbability highwayLength badPracticeRatio k
        cars (n + 1)

/-- `_spawn_new_cars_if_needed`: the deficit is computed once before
the loop. -/
def spawnNewCarsIfNeeded (o : Oracle) (s : HighwaySimulation) (n : ℕ) :
    HighwaySimulation × ℕ :=
  let missingCars := s.numCars - (s.cars.length : ℤ)
  let r := spawnAux o s.spawnProbability s.highwayLength
    s.badPracticeRatio missingCars.toNat s.cars n
  ({ s with cars := r.1 }, r.2)

/-- The lane-update pass of `step`: cars are processed in list order and
each update reads the live list, in which earlier cars of the same pass
have already been replaced by their updated versions. -/
def lanePassAux (o : Oracle) :
    List Car → List Car → ℕ → List Car × ℕ
  | done, [], n => (done, n)
  | done, car :: rest, n =>
    let r := updateCarLane o (done ++ car :: rest) car n
    lanePassAux o (done ++ [r.1]) rest r.2

/-- The speed-update pass of `step`, with the same live-list
sequential visibility as the lane pass. -/
def speedPassAux (timeStep : ℚ) : List Car → List Car → List Car
  | done, [] => done
  | done, car :: rest =>
    speedPassAux timeStep
      (done ++ [updateCarSpeed timeStep (done ++ car :: rest) car]) rest

/-- One adjacent-pair scan of the jam chain check: some pair of
consecutive (position-sorted) blocked cars closer than 100 m. -/
def consecutiveClose : List Car → Bool
  | c1 :: c2 :: rest =>
    distLtQ (getDistance c1 c2) 100 || consecutiveClose (c2 :: rest)
  | _ => false

/-- The jam detection block at the end of `step`: at least three blocked
cars overall, and some lane (checked left, middle, right) with at least
two blocked cars containing a consecutive pair within 100 m. -/
def jamDetect (cars : List Car) : Bool :=
  let blockedCars := cars.filter (fun c => isBlocked cars c)
  if blockedCars.length ≥ 3 then
    [Lane.left, Lane.middle, Lane.right].any fun lane =>
      let laneBlocked := blockedCars.filter (fun c => decide (c.lane = lane))
      if laneBlocked.length ≥ 2 then
        consecutiveClose (sortByPosition laneBlocked)
      else false
  else false

/-- `step`: lane pass, speed pass, position pass, despawn past the
highway end, spawn replacements, re-sort by position, then set the
sticky jam flag if a jam is detected. -/
def step (o : Oracle) (s : HighwaySimulation) (n : ℕ) :
    HighwaySimulation × ℕ :=
  let r1 := lanePassAux o [] s.cars n
  let cars2 := speedPassAux s.timeStep [] r1.1
  let cars3 := cars2.map (updateCarPosition s.timeStep)
  let cars4 := cars3.filter (fun c => decide (c.position ≤ s.highwayLength))
  let r5 := spawnNewCarsIfNeeded o { s with cars := cars4 } r1.2
  let cars6 := sortByPosition r5.1.cars
  let jam := r5.1.trafficJamDetected || jamDetect cars6
  ({ r5.1 with cars := cars6, trafficJamDetected := jam }, r5.2)

/-- Iterated `step`, threading the oracle counter. -/
def stepN (o : Oracle) : ℕ → HighwaySimulation × ℕ → HighwaySimulation × ℕ
  | 0, p => p
  | k + 1, p => stepN o k (step o p.1 p.2)

/-- The loop of `run`: Python's
`for step in range(max_steps): self.step(); if step > 100 and
self.traffic_jam_detected: return True` followed by `return False`.
The first argument is the remaining iteration count, the last the
current 0-based step index. -/
def runAux (o : Oracle) : ℕ → HighwaySimulation → ℕ → ℕ → Bool
  | 0, _, _, _ => false
  | fuel + 1, s, n, i =>
    let r := step o s n
    if i > 100 && r.1.trafficJamDetected then true
    else runAux o fuel r.1 r.2 (i + 1)

/-- `run(max_steps)`: reset the jam flag, then iterate `step`. -/
def run (o : Oracle) (s : HighwaySimulation) (n : ℕ) (maxSteps : ℕ) :
    Bool :=
  runAux o maxSteps { s with trafficJamDetected := false } n 0

/-! ### Specification-side definitions

These mirror the specification's wording (not the code) and are compared
against the embedded code in refinement theorems below. -/

/-- The single lane-change safety judgment shared by both direction
checks, written once over an arbitrary target lane: the loop body of
`_can_pass_on_left` and `_should_move_to_right` verbatim. -/
def laneChangeSafe (cars : List Car) (car : Car) (target : Lane) : Bool :=
  (getCarsInLane cars target).all fun otherCar =>
    if isCarAhead car otherCar then !(distLtQ (getDistance car otherCar) 50)
    else !(distLtQ (getDistance otherCar car) 50)

/-- The lane-change safety judgment as the specification words it: a
target lane is safe iff every car in it that is at a strictly greater
position is at least 50 m ahead, and every car at a smaller-or-equal
position is at least 50 m behind (reverse gap, infinite at equal
positions). -/
def claimedLaneSafe (cars : List Car) (car : Car) (target : Lane) : Bool :=
  (getCarsInLane cars target).all fun otherCar =>
    if otherCar.position > car.position then
      !(distLtQ (getDistance car otherCar) 50)
    else !(distLtQ (getDistance otherCar car) 50)

/-- Rules 3 and 4 of the specification's lane policy, written as the
flat priority list of the spec: overtake left when the nearest car
ahead is slower, the car is not leftmost and the left lane is safe;
otherwise return right when compliant, not rightmost and the right lane
is safe. -/
def specLaneLater (cars : List Car) (car : Car) : Car :=
  let slowerAhead : Bool :=
    match findCarAhead cars car with
    | some carAhead => decide (carAhead.speed < car.speed)
    | none => false
  if slowerAhead && !decide (car.lane = Lane.left)
      && laneChangeSafe cars car (Lane.ofVal (car.lane.val + 1)) then
    { car with lane := Lane.ofVal (car.lane.val + 1) }
  else if !car.followsBadPractice && !decide (car.lane = Lane.right)
      && laneChangeSafe cars car (Lane.ofVal (car.lane.val - 1)) then
    { car with lane := Lane.ofVal (car.lane.val - 1) }
  else car

/-- The specification's per-tick lane decision, rules 1-4 in strict
priority order with an explicit not-rightmost bound in rule 1 and the
shared safety judgment for both directions. -/
def specLaneDecision (o : Oracle) (cars : List Car) (car : Car) (n : ℕ) :
    Car × ℕ :=
  if !car.followsBadPractice && !decide (car.lane = Lane.right)
      && laneChangeSafe cars car (Lane.ofVal (car.lane.val - 1)) then
    ({ car with lane := Lane.ofVal (car.lane.val - 1) }, n)
  else if car.followsBadPractice && decide (car.lane = Lane.middle) then
    if o.rand n < 7/10 then (car, n + 1)
    else (specLaneLater cars car, n + 1)
  else (specLaneLater cars car, n)

/-! ### Basic lemmas -/

theorem canPassOnLeft_eq_safe (cars : List Car) (car : Car) :
    canPassOnLeft cars car
      = (!decide (car.lane = Lane.left)
          && laneChangeSafe cars car (Lane.ofVal (car.lane.val + 1))) := by
  by_cases h : car.lane = Lane.left <;>
    simp [canPassOnLeft, laneChangeSafe, h]

theorem shouldMoveToRight_eq_safe (cars : List Car) (car : Car) :
    shouldMoveToRight cars car
      = (!decide (car.lane = Lane.right)
          && laneChangeSafe cars car (Lane.ofVal (car.lane.val - 1))) := by
  by_cases h : car.lane = Lane.right <;>
    simp [shouldMoveToRight, laneChangeSafe, h]

theorem laneRuleRest_eq_later (cars : List Car) (car : Car) :
    laneRuleRest cars car = specLaneLater cars car := by
  unfold laneRuleRest specLaneLater laneReturnRight
  rw [canPassOnLeft_eq_safe, shouldMoveToRight_eq_safe]
  cases h : findCarAhead cars car <;>
    simp [Bool.and_assoc, Bool.and_comm, Bool.and_left_comm]

/-- C4: the per-tick lane decision follows the specification's four
rules in strict priority order, with the same shared safety judgment
used for both the rightward and leftward checks, the bad-practice
middle-lane dwell roll at 0.7, and nearest-slower-car overtaking. -/
theorem updateCarLane_priority_rules (o : Oracle) (cars : List Car)
    (car : Car) (n : ℕ) :
    updateCarLane o cars car n = specLaneDecision o cars car n := by
  unfold updateCarLane specLaneDecision
  rw [shouldMoveToRight_eq_safe, laneRuleRest_eq_later]
  simp [Bool.and_assoc]

theorem isCarAhead_self (c : Car) : isCarAhead c c = false := by
  simp [isCarAhead]

theorem mem_getCarsInLane {cars : List Car} {lane : Lane} {c : Car}
    (h : c ∈ getCarsInLane cars lane) : c ∈ cars := by
  unfold getCarsInLane sortByPosition at h
  have h2 : c ∈ cars.filter (fun c => decide (c.lane = lane)) :=
    (List.perm_insertionSort (fun c1 c2 : Car => c1.position ≤ c2.position)
      (cars.filter (fun c => decide (c.lane = lane)))).mem_iff.mp h
  exact (List.mem_filter.mp h2).1

theorem foldl_no_ahead (car : Car) (l : List Car)
    (h : ∀ c ∈ l, isCarAhead car c = false) (acc : Option Car × Option ℚ) :
    l.foldl (fun acc otherCar =>
      if isCarAhead car otherCar then
        if distLtD (getDistance car otherCar) acc.2 then
          (some otherCar, getDistance car otherCar)
        else acc
      else acc) acc = acc := by
  induction l generalizing acc with
  | nil => rfl
  | cons c l ih =>
    have hc : isCarAhead car c = false := h c (by simp)
    simp only [List.foldl_cons, hc, Bool.false_eq_true, if_false]
    exact ih (fun d hd => h d (by simp [hd])) acc

theorem findCarAhead_eq_none {cars : List Car} {car : Car}
    (h : ∀ c ∈ cars, isCarAhead car c = false) :
    findCarAhead cars car = none := by
  unfold findCarAhead
  rw [foldl_no_ahead car _ (fun c hc => h c (mem_getCarsInLane hc)) _]

theorem findCarAhead_singleton_self (c : Car) :
    findCarAhead [c] c = none :=
  findCarAhead_eq_none (by
    intro d hd
    rw [List.mem_singleton.mp hd]
    exact isCarAhead_self c)

theorem laneReturnRight_shape (cars : List Car) (car : Car) :
    ∃ l, laneReturnRight cars car = { car with lane := l } := by
  unfold laneReturnRight
  split
  · exact ⟨_, rfl⟩
  · exact ⟨car.lane, rfl⟩

theorem laneRuleRest_shape (cars : List Car) (car : Car) :
    ∃ l, laneRuleRest cars car = { car with lane := l } := by
  unfold laneRuleRest
  cases findCarAhead cars car with
  | none => exact laneReturnRight_shape cars car
  | some carAhead =>
    dsimp only
    by_cases hc :
      (decide (carAhead.speed < car.speed) && canPassOnLeft cars car) = true
    · rw [if_pos hc]
      exact ⟨_, rfl⟩
    · rw [if_neg hc]
      exact laneReturnRight_shape cars car

theorem updateCarLane_shape (o : Oracle) (cars : List Car) (car : Car)
    (n : ℕ) :
    ∃ l, (updateCarLane o cars car n).1 = { car with lane := l } := by
  unfold updateCarLane
  by_cases h1 : (!car.followsBadPractice && shouldMoveToRight cars car) = true
  · rw [if_pos h1]
    exact ⟨_, rfl⟩
  · rw [if_neg h1]
    by_cases h2 :
      (car.followsBadPractice && decide (car.lane = Lane.middle)) = true
    · rw [if_pos h2]
      by_cases h3 : o.rand n < 7/10
      · rw [if_pos h3]
        exact ⟨car.lane, rfl⟩
      · rw [if_neg h3]
        exact laneRuleRest_shape cars car
    · rw [if_neg h2]
      exact laneRuleRest_shape cars car

theorem updateCarSpeed_shape (ts : ℚ) (cars : List Car) (car : Car) :
    ∃ x, updateCarSpeed ts cars car = { car with speed := max 0 x } :=
  ⟨_, rfl⟩

theorem lanePassAux_shape (o : Oracle) (rest : List Car) :
    ∀ (done : List Car) (n : ℕ),
      ∃ tail m, lanePassAux o done rest n = (done ++ tail, m) ∧
        List.Forall₂ (fun a b => ∃ l, b = { a with lane := l }) rest tail := by
  induction rest with
  | nil =>
    intro done n
    exact ⟨[], n, by simp [lanePassAux], List.Forall₂.nil⟩
  | cons car rest ih =>
    intro done n
    obtain ⟨tail, m, heq, hf⟩ :=
      ih (done ++ [(updateCarLane o (done ++ car :: rest) car n).1])
        (updateCarLane o (done ++ car :: rest) car n).2
    refine ⟨(updateCarLane o (done ++ car :: rest) car n).1 :: tail, m, ?_, ?_⟩
    · rw [lanePassAux, heq]
      simp
    · exact List.Forall₂.cons
        (updateCarLane_shape o (done ++ car :: rest) car n) hf

theorem speedPassAux_shape (ts : ℚ) (rest : List Car) :
    ∀ (done : List Car),
      ∃ tail, speedPassAux ts done rest = done ++ tail ∧
        List.Forall₂ (fun a b => ∃ x, b = { a with speed := max 0 x })
          rest tail := by
  induction rest with
  | nil => intro done; exact ⟨[], by simp [speedPassAux], List.Forall₂.nil⟩
  | cons car rest ih =>
    intro done
    obtain ⟨tail, heq, hf⟩ :=
      ih (done ++ [updateCarSpeed ts (done ++ car :: rest) car])
    refine ⟨updateCarSpeed ts (done ++ car :: rest) car :: tail, ?_, ?_⟩
    · rw [speedPassAux, heq]
      simp
    · exact List.Forall₂.cons
        (updateCarSpeed_shape ts (done ++ car :: rest) car) hf

theorem forall₂_rel_trans {α β γ : Type} {R : α → β → Prop}
    {S : β → γ → Prop} {l : List α} {m : List β} {k : List γ}
    (h1 : List.Forall₂ R l m) (h2 : List.Forall₂ S m k) :
    List.Forall₂ (fun a c => ∃ b, R a b ∧ S b c) l k := by
  induction h1 generalizing k with
  | nil => cases h2; exact .nil
  | cons hab h ih =>
    cases h2 with
    | cons hbc h2' => exact .cons ⟨_, hab, hbc⟩ (ih h2')

theorem findCarAhead_nil (car : Car) : findCarAhead [] car = none := rfl

theorem speedPassAux_singleton (ts : ℚ) (c : Car) :
    speedPassAux ts [] [c] = [updateCarSpeed ts [c] c] := rfl

theorem lanePassAux_singleton (o : Oracle) (c : Car) (n : ℕ) :
    lanePassAux o [] [c] n
      = ([(updateCarLane o [c] c n).1], (updateCarLane o [c] c n).2) := rfl

theorem sortByPosition_singleton (c : Car) : sortByPosition [c] = [c] := rfl

theorem spawnAux_zero (o : Oracle) (sp hl br : ℚ) (cars : List Car)
    (n : ℕ) : spawnAux o sp hl br 0 cars n = (cars, n) := rfl

theorem spawnNewCarsIfNeeded_no_missing (o : Oracle)
    (s : HighwaySimulation) (n : ℕ) (h : s.numCars ≤ (s.cars.length : ℤ)) :
    spawnNewCarsIfNeeded o s n = (s, n) := by
  unfold spawnNewCarsIfNeeded
  dsimp only
  have h0 : (s.numCars - (s.cars.length : ℤ)).toNat = 0 := by omega
  rw [h0, spawnAux_zero]

/-- C10: the ahead relation is strict in position: a co-located same-lane
car is not ahead in either direction, and a car all of whose same-lane
peers are at smaller-or-equal positions has no nearest car ahead, is not
blocked, and gets the same speed update as on an empty highway
(the accelerate branch). -/
theorem colocated_car_not_ahead :
    (∀ c1 c2 : Car, c1.lane = c2.lane → c1.position = c2.position →
      isCarAhead c1 c2 = false ∧ isCarAhead c2 c1 = false)
    ∧ ∀ (ts : ℚ) (cars : List Car) (car : Car),
        (∀ c ∈ cars, c.lane = car.lane → c.position ≤ car.position) →
        findCarAhead cars car = none ∧ isBlocked cars car = false ∧
          updateCarSpeed ts cars car = updateCarSpeed ts [] car := by
  constructor
  · intro c1 c2 hl hp
    constructor
    · simp [isCarAhead, hl, hp]
    · simp [isCarAhead, hl.symm, hp]
  · intro ts cars car h
    have hnone : findCarAhead cars car = none := by
      apply findCarAhead_eq_none
      intro c hc
      unfold isCarAhead
      by_cases hl : c.lane = car.lane
      · rw [if_pos hl]
        simp [not_lt.mpr (h c hc hl)]
      · rw [if_neg hl]
    refine ⟨hnone, ?_, ?_⟩
    · unfold isBlocked
      rw [hnone]
    · unfold updateCarSpeed
      rw [hnone, findCarAhead_nil]

/-- C5: whenever the speed update finds no car ahead in the car's
current lane, the new speed is exactly
`min (speed + 2.0 * time_step) max_speed`; and a simulation holding a
single car that stays on the highway sees, after one `step`, exactly
that new speed for its one car. -/
theorem speed_update_no_car_ahead :
    (∀ (ts : ℚ) (cars : List Car) (car : Car),
        0 ≤ ts → 0 ≤ car.speed → 0 ≤ car.maxSpeed →
        findCarAhead cars car = none →
        (updateCarSpeed ts cars car).speed
          = min (car.speed + 2 * ts) car.maxSpeed)
    ∧ ∀ (o : Oracle) (s : HighwaySimulation) (n : ℕ) (car : Car),
        s.cars = [car] → s.numCars ≤ 1 → 0 ≤ s.timeStep →
        0 ≤ car.speed → 0 ≤ car.maxSpeed →
        car.position
            + min (car.speed + 2 * s.timeStep) car.maxSpeed
              * s.timeStep * (1000 / 3600) ≤ s.highwayLength →
        (step o s n).1.cars.map Car.speed
          = [min (car.speed + 2 * s.timeStep) car.maxSpeed] := by
  have key : ∀ (ts : ℚ) (cars : List Car) (car : Car),
      0 ≤ ts → 0 ≤ car.speed → 0 ≤ car.maxSpeed →
      findCarAhead cars car = none →
      updateCarSpeed ts cars car
        = { car with speed := min (car.speed + 2 * ts) car.maxSpeed } := by
    intro ts cars car hts hsp hms hnone
    have hmin : 0 ≤ min (car.speed + 2 * ts) car.maxSpeed :=
      le_min (add_nonneg hsp (mul_nonneg (by norm_num) hts)) hms
    unfold updateCarSpeed
    rw [hnone]
    dsimp only
    rw [max_eq_right hmin]
  constructor
  · intro ts cars car hts hsp hms hnone
    rw [key ts cars car hts hsp hms hnone]
  · intro o s n car hcars hnum hts hsp hms hsurv
    obtain ⟨l, hl⟩ := updateCarLane_shape o [car] car n
    have h2 : updateCarSpeed s.timeStep [(updateCarLane o [car] car n).1]
        (updateCarLane o [car] car n).1
        = { car with
            lane := l
            speed := min (car.speed + 2 * s.timeStep) car.maxSpeed } := by
      rw [hl]
      exact key s.timeStep [{ car with lane := l }] { car with lane := l }
        hts hsp hms (findCarAhead_singleton_self { car with lane := l })
    have h3 : updateCarPosition s.timeStep
        ({ car with
            lane := l
            speed := min (car.speed + 2 * s.timeStep) car.maxSpeed })
        = { car with
            lane := l
            speed := min (car.speed + 2 * s.timeStep) car.maxSpeed
            position := car.position
              + min (car.speed + 2 * s.timeStep) car.maxSpeed
                * s.timeStep * (1000 / 3600) } := rfl
    unfold step
    rw [hcars, lanePassAux_singleton]
    dsimp only
    rw [speedPassAux_singleton, h2]
    simp only [List.map_cons, List.map_nil]
    rw [h3]
    simp only [List.filter_cons, List.filter_nil]
    rw [if_pos (decide_eq_true hsurv)]
    rw [spawnNewCarsIfNeeded_no_missing _ _ _ (by
      simp only [List.length_cons, List.length_nil]
      omega)]
    dsimp only
    rw [sortByPosition_singleton]
    rfl

theorem forall₂_map_right {α β γ : Type} {R : α → γ → Prop} {f : β → γ}
    {l : List α} {k : List β}
    (h : List.Forall₂ (fun a b => R a (f b)) l k) :
    List.Forall₂ R l (k.map f) := by
  induction h with
  | nil => exact .nil
  | cons hab _ ih => exact .cons hab ih

/-- C6: the position integrator adds `speed * time_step * (1000/3600)`
exactly, and because the speed pass clamps every speed at zero and the
lane pass leaves positions untouched, no car's position decreases across
the three update passes of a tick (despawn, spawn and re-sort never
modify a surviving car's position). -/
theorem position_monotone_across_tick :
    (∀ (ts : ℚ) (car : Car),
      (updateCarPosition ts car).position
        = car.position + car.speed * ts * (1000 / 3600))
    ∧ ∀ (o : Oracle) (s : HighwaySimulation) (n : ℕ), 0 ≤ s.timeStep →
        List.Forall₂ (fun c c' => c.position ≤ c'.position) s.cars
          ((speedPassAux s.timeStep [] (lanePassAux o [] s.cars n).1).map
            (updateCarPosition s.timeStep)) := by
  constructor
  · intro ts car
    rfl
  · intro o s n hts
    obtain ⟨tail1, m, heq1, hf1⟩ := lanePassAux_shape o s.cars [] n
    rw [List.nil_append] at heq1
    obtain ⟨tail2, heq2, hf2⟩ := speedPassAux_shape s.timeStep tail1 []
    rw [List.nil_append] at heq2
    rw [heq1]
    dsimp only
    rw [heq2]
    apply forall₂_map_right
    apply (forall₂_rel_trans hf1 hf2).imp
    rintro a c ⟨b, ⟨l, hb⟩, ⟨x, hc⟩⟩
    subst hb hc
    dsimp [updateCarPosition]
    have hnn : 0 ≤ max 0 x * s.timeStep * (1000 / 3600) :=
      mul_nonneg (mul_nonneg (le_max_left 0 x) hts) (by norm_num)
    linarith

theorem lanePassAux_nil_length (o : Oracle) (cars : List Car) (n : ℕ) :
    (lanePassAux o [] cars n).1.length = cars.length := by
  obtain ⟨tail, m, heq, hf⟩ := lanePassAux_shape o cars [] n
  rw [heq]
  simpa using hf.length_eq.symm

theorem speedPassAux_nil_length (ts : ℚ) (cars : List Car) :
    (speedPassAux ts [] cars).length = cars.length := by
  obtain ⟨tail, heq, hf⟩ := speedPassAux_shape ts cars []
  rw [heq]
  simpa using hf.length_eq.symm

theorem sortByPosition_length (l : List Car) :
    (sortByPosition l).length = l.length :=
  (List.perm_insertionSort _ l).length_eq

theorem initCarsAux_length (o : Oracle) (hl br : ℚ) :
    ∀ (k : ℕ) (acc : List Car) (n : ℕ),
      (initCarsAux o hl br k acc n).1.length = acc.length + k := by
  intro k
  induction k with
  | zero =>
    intro acc n
    simp [initCarsAux]
  | succ k ih =>
    intro acc n
    rw [initCarsAux, ih]
    simp
    omega

theorem spawnAux_length (o : Oracle) (sp hl br : ℚ) :
    ∀ (k : ℕ) (cars : List Car) (n : ℕ),
      (spawnAux o sp hl br k cars n).1.length ≤ cars.length + k := by
  intro k
  induction k with
  | zero =>
    intro cars n
    simp [spawnAux]
  | succ k ih =>
    intro cars n
    rw [spawnAux]
    dsimp only
    split
    · split
      · refine le_trans (ih _ _) ?_
        simp
        omega
      · exact le_trans (ih _ _) (by omega)
    · exact le_trans (ih _ _) (by omega)

theorem spawnNewCarsIfNeeded_count (o : Oracle) (s : HighwaySimulation)
    (n : ℕ) {B : ℤ} (h1 : s.numCars ≤ B) (h2 : (s.cars.length : ℤ) ≤ B) :
    ((spawnNewCarsIfNeeded o s n).1.cars.length : ℤ) ≤ B := by
  unfold spawnNewCarsIfNeeded
  dsimp only
  have h := spawnAux_length o s.spawnProbability s.highwayLength
    s.badPracticeRatio (s.numCars - (s.cars.length : ℤ)).toNat s.cars n
  omega

theorem step_numCars (o : Oracle) (s : HighwaySimulation) (n : ℕ) :
    (step o s n).1.numCars = s.numCars := rfl

theorem step_count (o : Oracle) (s : HighwaySimulation) (n : ℕ)
    (h : (s.cars.length : ℤ) ≤ s.numCars) :
    ((step o s n).1.cars.length : ℤ) ≤ s.numCars := by
  have l1 := lanePassAux_nil_length o s.cars n
  have l2 := speedPassAux_nil_length s.timeStep (lanePassAux o [] s.cars n).1
  have l3 : ((speedPassAux s.timeStep [] (lanePassAux o [] s.cars n).1).map
      (updateCarPosition s.timeStep)).length
      = (speedPassAux s.timeStep [] (lanePassAux o [] s.cars n).1).length := by
    simp
  have l4 := List.length_filter_le
    (fun c => decide (c.position ≤ s.highwayLength))
    ((speedPassAux s.timeStep [] (lanePassAux o [] s.cars n).1).map
      (updateCarPosition s.timeStep))
  have hc4 : ((((speedPassAux s.timeStep []
      (lanePassAux o [] s.cars n).1).map
        (updateCarPosition s.timeStep)).filter
      (fun c => decide (c.position ≤ s.highwayLength))).length : ℤ)
      ≤ s.numCars := by
    omega
  show ((sortByPosition (spawnNewCarsIfNeeded o
    { s with
      cars := ((speedPassAux s.timeStep []
        (lanePassAux o [] s.cars n).1).map
          (updateCarPosition s.timeStep)).filter
        (fun c => decide (c.position ≤ s.highwayLength)) }
    (lanePassAux o [] s.cars n).2).1.cars).length : ℤ) ≤ s.numCars
  rw [sortByPosition_length]
  exact spawnNewCarsIfNeeded_count o _ _ (le_refl s.numCars) hc4

theorem stepN_count (o : Oracle) :
    ∀ (k : ℕ) (p : HighwaySimulation × ℕ),
      (p.1.cars.length : ℤ) ≤ p.1.numCars →
      ((stepN o k p).1.cars.length : ℤ) ≤ p.1.numCars := by
  intro k
  induction k with
  | zero =>
    intro p h
    exact h
  | succ k ih =>
    intro p h
    rw [stepN]
    have h1 := step_count o p.1 p.2 h
    have h2 := ih (step o p.1 p.2) (by rw [step_numCars]; exact h1)
    rw [step_numCars] at h2
    exact h2

/-- C7: construction creates exactly the target number of cars (for a
nonnegative target), one `step` never pushes the car count above the
target when it was within the target before, and consequently the count
stays within the target across any number of steps. -/
theorem car_count_never_exceeds_target :
    (∀ (o : Oracle) (nc : ℤ) (len br sp : ℚ) (n : ℕ), 0 ≤ nc →
      ((initSim o nc len br sp n).1.cars.length : ℤ) = nc)
    ∧ (∀ (o : Oracle) (s : HighwaySimulation) (n : ℕ),
        (s.cars.length : ℤ) ≤ s.numCars →
        ((step o s n).1.cars.length : ℤ) ≤ s.numCars)
    ∧ ∀ (o : Oracle) (k : ℕ) (p : HighwaySimulation × ℕ),
        (p.1.cars.length : ℤ) ≤ p.1.numCars →
        ((stepN o k p).1.cars.length : ℤ) ≤ p.1.numCars := by
  refine ⟨?_, fun o s n h => step_count o s n h,
    fun o k p h => stepN_count o k p h⟩
  intro o nc len br sp n h
  unfold initSim
  dsimp only
  rw [sortByPosition_length, initCarsAux_length]
  simp
  omega

theorem step_flag_mono (o : Oracle) (s : HighwaySimulation) (n : ℕ)
    (h : s.trafficJamDetected = true) :
    (step o s n).1.trafficJamDetected = true := by
  simp [step, spawnNewCarsIfNeeded, h]

theorem runAux_true_iff (o : Oracle) :
    ∀ (fuel : ℕ) (s : HighwaySimulation) (n i : ℕ),
      runAux o fuel s n i = true ↔
        ∃ j, j < fuel ∧ 100 < i + j ∧
          (stepN o (j + 1) (s, n)).1.trafficJamDetected = true := by
  intro fuel
  induction fuel with
  | zero =>
    intro s n i
    simp [runAux]
  | succ fuel ih =>
    intro s n i
    rw [runAux]
    by_cases hc : (decide (i > 100) && (step o s n).1.trafficJamDetected)
        = true
    · rw [if_pos hc]
      simp only [Bool.and_eq_true, decide_eq_true_eq] at hc
      constructor
      · intro _
        refine ⟨0, Nat.succ_pos _, by omega, ?_⟩
        show (stepN o 0 (step o s n)).1.trafficJamDetected = true
        exact hc.2
      · intro _
        rfl
    · rw [if_neg hc]
      rw [ih (step o s n).1 (step o s n).2 (i + 1)]
      simp only [Bool.and_eq_true, decide_eq_true_eq, not_and] at hc
      constructor
      · rintro ⟨j, hj, hij, hflag⟩
        refine ⟨j + 1, by omega, by omega, ?_⟩
        show (stepN o (j + 1) (step o s n)).1.trafficJamDetected = true
        exact hflag
      · rintro ⟨j, hj, hij, hflag⟩
        cases j with
        | zero =>
          exact absurd (show (step o s n).1.trafficJamDetected = true
            from hflag) (hc (by omega))
        | succ j =>
          exact ⟨j, by omega, by omega, hflag⟩

/-- C3 (amended): `run(max_steps)` resets the sticky jam flag and then
iterates `step`; it returns true exactly when some step index `j` with
`100 < j < max_steps` sees the sticky flag set after `j + 1` steps.
Because the flag is sticky and is never cleared during a run, a jam
detected during the warm-up ticks also makes `run` return true at the
first post-warm-up check. -/
theorem run_true_iff_sticky (o : Oracle) (s : HighwaySimulation)
    (n maxSteps : ℕ) :
    run o s n maxSteps = true ↔
      ∃ j, j < maxSteps ∧ 100 < j ∧
        (stepN o (j + 1)
            ({ s with trafficJamDetected := false }, n)).1.trafficJamDetected
          = true := by
  unfold run
  rw [runAux_true_iff]
  simp

/-- A constant oracle: every `random.random()` draw is 1, every uniform
draw 0, every triangular draw 0, every lane draw Right. -/
def constOracle : Oracle := ⟨fun _ => 1, fun _ => 0, fun _ => 0,
  fun _ => Lane.right⟩

/-- Four bad-practice cars in the left lane near the end of a 100 m
highway, each one faster than its leader: all of them brake during the
first tick, three of them are blocked there (jam detected at tick 0,
during warm-up), and every car passes the highway end at tick 1, leaving
the road empty for the rest of the run. -/
def warmupJamCars : List Car :=
  [⟨95, 103, Lane.left, 103, true⟩, ⟨191/2, 102, Lane.left, 102, true⟩,
   ⟨96, 101, Lane.left, 101, true⟩, ⟨193/2, 100, Lane.left, 100, true⟩]

/-- The simulation state around `warmupJamCars`: target count 4, highway
length 100, spawn probability 0 (the constant oracle never spawns). -/
def warmupJamSim : HighwaySimulation := ⟨4, 100, 0, 0, warmupJamCars, 1/10, false⟩

/-- C3 counterexample: a jam is detected only at tick 0 (during
warm-up); the highway is empty from tick 2 on, so no jam condition
arises at the post-warm-up ticks 100 and 101, yet `run(102)` returns
true, because the sticky flag set during warm-up is read by the
post-warm-up check. -/
theorem run_true_after_warmup_only_jam :
    run constOracle warmupJamSim 0 102 = true
    ∧ jamDetect (stepN constOracle 101 (warmupJamSim, 0)).1.cars = false
    ∧ jamDetect (stepN constOracle 102 (warmupJamSim, 0)).1.cars = false := by
  with_unfolding_all decide

/-- The evaluated car of the C1 scenario: rightmost lane, position 0. -/
def passCheckCar : Car := ⟨0, 100, Lane.right, 130, false⟩

/-- A car 10 m ahead of `passCheckCar` in its target (middle) lane. -/
def targetLaneCar : Car := ⟨10, 100, Lane.middle, 130, false⟩

/-- C1: the code's lane-change safety check judges the middle lane safe
for `passCheckCar` even though `targetLaneCar` sits 10 m (< 50 m)
strictly ahead in it: `_is_car_ahead` compares lanes first, and a
target-lane car is never in the evaluated car's lane, so the
car-is-ahead branch of the safety loop is unreachable and cars ahead in
the target lane are ignored.  The safety judgment worded by the
specification (`claimedLaneSafe`) classifies the same lane unsafe. -/
theorem canPassOnLeft_ignores_car_ahead :
    canPassOnLeft [passCheckCar, targetLaneCar] passCheckCar = true
    ∧ claimedLaneSafe [passCheckCar, targetLaneCar] passCheckCar
        Lane.middle = false := by
  with_unfolding_all decide

/-- A slow car 40 m behind a much faster leader in the left lane. -/
def speedBugFollower : Car := ⟨0, 90, Lane.left, 90, true⟩

/-- The leader of the C2 scenario, cruising at 130. -/
def speedBugLeader : Car := ⟨40, 130, Lane.left, 130, true⟩

/-- The two-car simulation state of the C2 scenario. -/
def speedBugSim : HighwaySimulation :=
  ⟨2, 2000, 0, 0, [speedBugFollower, speedBugLeader], 1/10, false⟩

/-- C2: after one `step`, the follower's speed is 125 — far above its
own `max_speed` of 90 — because the braking branch of the speed update
assigns `max(leader.speed - 5, own.speed - 5 * time_step)` without
capping at the car's `max_speed`.  The speed invariant
`speed ≤ max_speed` is violated at a tick boundary. -/
theorem step_speed_exceeds_maxSpeed :
    (step constOracle speedBugSim 0).1.cars.map
        (fun c => (c.speed, c.maxSpeed)) = [(125, 90), (130, 130)]
    ∧ ((step constOracle speedBugSim 0).1.cars.any
        fun c => decide (c.maxSpeed < c.speed)) = true := by
  with_unfolding_all decide

/-- C8: the constructor embedding is total, exactly like the Python
`__init__`, which contains no validation: a negative car count, a
negative highway length and a bad-practice ratio above 1 are all
accepted silently and stored unchanged (the creation loop is simply
empty for a negative count). -/
theorem initSim_accepts_invalid_config :
    (initSim constOracle (-1) (-5) (3/2) (3/10) 0).1
      = ⟨-1, -5, 3/2, 3/10, [], 1/10, false⟩ := by
  with_unfolding_all decide

/-- A single stationary car used as a witness input. -/
def idleCar : Car := ⟨0, 0, Lane.right, 0, false⟩

/-- A one-car simulation with a zero time step, used as a witness
input. -/
def idleSim : HighwaySimulation := ⟨1, 0, 0, 0, [idleCar], 0, false⟩

theorem speed_update_no_car_ahead_witness :
    (updateCarSpeed 0 [] idleCar).speed
        = min (idleCar.speed + 2 * 0) idleCar.maxSpeed
    ∧ (step constOracle idleSim 0).1.cars.map Car.speed
        = [min (idleCar.speed + 2 * idleSim.timeStep) idleCar.maxSpeed] :=
  ⟨speed_update_no_car_ahead.1 0 [] idleCar (le_refl 0) (le_refl 0)
      (le_refl 0) (findCarAhead_nil idleCar),
    speed_update_no_car_ahead.2 constOracle idleSim 0 idleCar rfl
      (le_refl 1) (le_refl 0) (le_refl 0) (le_refl 0)
      (by with_unfolding_all decide)⟩

theorem position_monotone_across_tick_witness :
    (updateCarPosition 0 idleCar).position
        = idleCar.position + idleCar.speed * 0 * (1000 / 3600)
    ∧ List.Forall₂ (fun c c' => c.position ≤ c'.position) idleSim.cars
        ((speedPassAux idleSim.timeStep []
          (lanePassAux constOracle [] idleSim.cars 0).1).map
            (updateCarPosition idleSim.timeStep)) :=
  ⟨position_monotone_across_tick.1 0 idleCar,
    position_monotone_across_tick.2 constOracle idleSim 0 (le_refl 0)⟩

theorem car_count_never_exceeds_target_witness :
    ((initSim constOracle 0 0 0 0 0).1.cars.length : ℤ) = 0
    ∧ ((step constOracle idleSim 0).1.cars.length : ℤ) ≤ idleSim.numCars
    ∧ ((stepN constOracle 5 (idleSim, 0)).1.cars.length : ℤ)
        ≤ idleSim.numCars :=
  ⟨car_count_never_exceeds_target.1 constOracle 0 0 0 0 0 (le_refl 0),
    car_count_never_exceeds_target.2.1 constOracle idleSim 0 (by decide),
    car_count_never_exceeds_target.2.2 constOracle 5 (idleSim, 0)
      (by decide)⟩

/-- A car co-located with `colocatedA`: same lane, same position,
different speed. -/
def colocatedB : Car := ⟨5, 15, Lane.middle, 20, false⟩

/-- One of two co-located middle-lane cars used as a witness input. -/
def colocatedA : Car := ⟨5, 10, Lane.middle, 20, false⟩

theorem colocated_car_not_ahead_witness :
    (isCarAhead colocatedA colocatedB = false
      ∧ isCarAhead colocatedB colocatedA = false)
    ∧ (findCarAhead [colocatedA, colocatedB] colocatedA = none
        ∧ isBlocked [colocatedA, colocatedB] colocatedA = false
        ∧ updateCarSpeed 1 [colocatedA, colocatedB] colocatedA
            = updateCarSpeed 1 [] colocatedA) :=
  ⟨colocated_car_not_ahead.1 colocatedA colocatedB rfl rfl,
    colocated_car_not_ahead.2 1 [colocatedA, colocatedB] colocatedA
      (by
        intro c hc _
        rcases List.mem_cons.mp hc with h | h
        · rw [h]
        · rw [List.mem_singleton.mp h]
          exact le_refl (5 : ℚ))⟩

end Highway
